import Mathlib

/-!
Verification development for the TLX backend chat endpoint
(`backend/main.py`), a dialogue state machine and slot-filling engine for a
medical-equipment rental assistant.

The `chat` endpoint is embedded shallowly:

* pure helpers (`_detect_intent`, `_is_affirmative`, `_is_negative`,
  `_parse_name`, `_parse_dates`, `_parse_postal`, the labelled-field parser of
  edit mode) are translated to executable Lean functions over `List Char`,
  with Python's regular expressions hand-compiled to deterministic scanners
  (the patterns involved — `\b\d{1,2}/\d{1,2}/\d{2,4}\b`, `\b\d{5}\b`,
  `(?i)\b<label>\b\s*:\s*(.+)`, `\b[A-Za-z0-9\-]{4,}\b` — use only bounded
  greedy pieces, so their backtracking is finite and is compiled away below);
* the per-turn handler becomes a pure function from a `TurnInput` and the
  stored session entry (`Option Session`) to a `ChatResponse` and the new
  stored entry; external collaborators (language detection, attachment store,
  generated ids, the RAG/LLM fallback) enter as input fields, matching the
  interface contract of the specification;
* the per-language literal reply strings are abstracted into a closed
  `ReplyKind` template catalogue (one constructor per distinct message
  template of the source, carrying the template's parameters); the claims
  under verification only ever distinguish templates, never their wording.

Approximations, noted once here: character classes (`\w`, `\s`, lowercasing)
are modelled on the ASCII range, with every code point above 127 treated as a
word character — all non-ASCII characters appearing in the source's keyword
and label lists (French accented letters, Arabic letters) are word characters
for Python's Unicode-aware `re` as well, and no claim depends on non-ASCII
boundary behaviour.
-/

namespace TLX

/-! ## Character-level utilities (Python string semantics) -/

/-- Python's `\s` class over ASCII: space, tab, newline, carriage return,
vertical tab, form feed. -/
def isPySpace (c : Char) : Bool :=
  c == ' ' || c == '\t' || c == '\n' || c == '\r' || c == '\x0b' || c == '\x0c'

/-- Python's `\w` class, restricted to ASCII alphanumerics and underscore,
with all code points above 127 treated as word characters (see header). -/
def isWordChar (c : Char) : Bool :=
  c.isAlphanum || c == '_' || 127 < c.toNat

/-- ASCII lowercasing, as applied by `.lower()` in the source. -/
def lowerStr (s : String) : String := String.mk (s.data.map Char.toLower)

/-- Python `str.strip()`: drop leading and trailing whitespace. -/
def strTrim (s : String) : String :=
  String.mk (((s.data.dropWhile isPySpace).reverse.dropWhile isPySpace).reverse)

/-- Auxiliary scan for substring containment. -/
def containsSubAux (pat : List Char) : List Char → Bool
  | [] => pat.isPrefixOf []
  | c :: rest => pat.isPrefixOf (c :: rest) || containsSubAux pat rest

/-- Python's `pat in t` substring test. -/
def containsSub (t pat : String) : Bool := containsSubAux pat.data t.data

/-- Accumulator-based whitespace splitting. -/
def wordsAux (acc : List Char) : List Char → List (List Char)
  | [] => [acc.reverse]
  | c :: cs =>
    if isPySpace c then acc.reverse :: wordsAux [] cs else wordsAux (c :: acc) cs

/-- Python `str.split()` with no separator (equivalently `re.split(r"\s+")`
followed by dropping empty pieces): the whitespace-separated words. -/
def pySplitWs (s : String) : List String :=
  ((wordsAux [] s.data).filter (· ≠ [])).map String.mk

/-! ## Field extractors (`backend/main.py`, lines 322-340 and 369-402) -/

/-- `_parse_name` (main.py 331-340): accept `"Nom, Prenom"` — split on commas,
keep the first two non-empty stripped segments — or else two
whitespace-separated tokens when the normalised join stays within 80
characters. -/
def _parse_name (t : String) : String :=
  let commaResult : Option String :=
    if containsSub t "," then
      let parts := ((t.data.splitOn ',').map (fun l => strTrim (String.mk l))).filter (· ≠ "")
      match parts with
      | p0 :: p1 :: _ => some (p0 ++ " " ++ p1)
      | _ => none
    else none
  match commaResult with
  | some r => r
  | none =>
    let parts := pySplitWs (strTrim t)
    match parts with
    | p0 :: p1 :: _ =>
      if (String.intercalate " " parts).length ≤ 80 then p0 ++ " " ++ p1 else ""
    | _ => ""

/-- One attempt of the date regex `\b\d{1,2}/\d{1,2}/\d{2,4}\b` at the head of
`cs` (the leading word boundary having been checked by the caller): returns
the matched token and the rest. The greedy bounded `\d{m,n}` pieces, each
followed by a non-digit (`/` or a boundary), reduce to maximal-digit-run
length checks. -/
def dateTokenAt (cs : List Char) : Option (List Char × List Char) :=
  let (d1, r1) := cs.span (·.isDigit)
  if d1.length < 1 || 2 < d1.length then none else
  match r1 with
  | '/' :: r2 =>
    let (d2, r3) := r2.span (·.isDigit)
    if d2.length < 1 || 2 < d2.length then none else
    match r3 with
    | '/' :: r4 =>
      let (d3, r5) := r4.span (·.isDigit)
      if d3.length < 2 || 4 < d3.length then none else
      match r5 with
      | [] => some (d1 ++ '/' :: (d2 ++ '/' :: d3), [])
      | c :: _ => if isWordChar c then none else some (d1 ++ '/' :: (d2 ++ '/' :: d3), c :: r5.tail)
    | _ => none
  | _ => none

/-- `re.findall` scan for the date pattern: left to right, non-overlapping,
tracking whether the previous character was a word character (for `\b`).
`fuel` only needs to dominate the list length: every step consumes at least
one character. -/
def findDatesAux : Nat → Bool → List Char → List String
  | 0, _, _ => []
  | _, _, [] => []
  | fuel + 1, prevW, c :: rest =>
    if !prevW && c.isDigit then
      match dateTokenAt (c :: rest) with
      | some (tok, r) => String.mk tok :: findDatesAux fuel true r
      | none => findDatesAux fuel (isWordChar c) rest
    else findDatesAux fuel (isWordChar c) rest

/-- `_parse_dates` (main.py 323-325): all `\b\d{1,2}/\d{1,2}/\d{2,4}\b`
matches, in order. -/
def _parse_dates (t : String) : List String := findDatesAux t.data.length false t.data

/-- `re.search(r"\b\d{5}\b", t)` scan: first maximal digit run of length
exactly 5 sitting between word boundaries. -/
def findPostalAux : Bool → List Char → Option String
  | _, [] => none
  | prevW, c :: rest =>
    if !prevW && c.isDigit then
      let run := (c :: rest).takeWhile (·.isDigit)
      let r := (c :: rest).dropWhile (·.isDigit)
      if run.length = 5 && (match r with | [] => true | c2 :: _ => !isWordChar c2) then
        some (String.mk run)
      else findPostalAux (isWordChar c) rest
    else findPostalAux (isWordChar c) rest

/-- `_parse_postal` (main.py 327-329): the matched 5-digit token, or `""`. -/
def _parse_postal (t : String) : String := (findPostalAux false t.data).getD ""

/-! ## Labelled-field parser (edit mode, main.py 369-402 and 701-744) -/

/-- Case-insensitive literal match of `pat` at the head of `cs`; returns the
rest on success. -/
def matchPatAt : List Char → List Char → Option (List Char)
  | [], rest => some rest
  | _ :: _, [] => none
  | p :: ps, c :: rest => if c.toLower == p.toLower then matchPatAt ps rest else none

/-- The `\s*(.+)` tail of the label regex, applied after the colon: greedy
whitespace skip, then a non-empty same-line capture; when the rest is all
whitespace, `\s*` backtracks so that `(.+)` captures the last character that
is not a newline, if any. -/
def captureAfterColon (r : List Char) : Option (List Char) :=
  let rest := r.dropWhile isPySpace
  match rest with
  | _ :: _ => some (rest.takeWhile (· ≠ '\n'))
  | [] =>
    match ((r.reverse.dropWhile (· == '\n')).reverse).getLast? with
    | some c => some [c]
    | none => none

/-- `re.search(rf"(?i)\b{p}\b\s*:\s*(.+)", lt)` scan: first position where the
label matches between word boundaries and is followed by an optionally-spaced
colon and a non-empty capture; returns the captured group. -/
def searchLabeledAux (pat : List Char) : Bool → List Char → Option String
  | _, [] => none
  | prevW, c :: rest =>
    let here : Option String :=
      if prevW then none else
      match matchPatAt pat (c :: rest) with
      | none => none
      | some r0 =>
        if (match r0 with | [] => false | c2 :: _ => isWordChar c2) then none
        else
          match r0.dropWhile isPySpace with
          | ':' :: r2 => (captureAfterColon r2).map String.mk
          | _ => none
    match here with
    | some v => some v
    | none => searchLabeledAux pat (isWordChar c) rest

/-- Search `lt` for a `label: value` occurrence of `pat`. -/
def searchLabeled (pat lt : String) : Option String := searchLabeledAux pat.data false lt.data

/-- One `_apply_labeled_change(patterns, key, ...)` call: try each label
synonym in order; when a label matches, strip the captured value and re-parse
it with the field's typed converter; a failed conversion falls through to the
next synonym (mirroring the `for`-loop that only returns on success). -/
def labeledValue (patterns : List String) (lt : String) (conv : String → Option String) : Option String :=
  patterns.findSome? fun p => (searchLabeled p lt).bind fun raw => conv (strTrim raw)

/-- Typed converter for the name field: `_parse_name`, kept only if non-empty. -/
def nameConv (v : String) : Option String :=
  let nm := _parse_name v
  if nm = "" then none else some nm

/-- Typed converter for the date fields in edit mode: the first date token of
the captured value (`ds[0]`). -/
def dateConv (v : String) : Option String := (_parse_dates v).head?

/-- Typed converter for the postal-code field: the 5-digit search, kept only
if it matched. -/
def postalConv (v : String) : Option String :=
  let pc := _parse_postal v
  if pc = "" then none else some pc

/-- Label synonyms for the name field (main.py 399/741). -/
def namePats : List String := ["nom", "name", "الاسم"]

/-- Label synonyms for the start-date field (main.py 400/742). -/
def startPats : List String := ["date début", "date debut", "start date", "تاريخ البدء"]

/-- Label synonyms for the end-date field (main.py 401/743). -/
def endPats : List String := ["date fin", "end date", "تاريخ النهاية"]

/-- Label synonyms for the postal-code field (main.py 402/744). -/
def postalPats : List String := ["code postal", "postal code", "الرمز البريدي"]

/-! ## Order-reference search (`\b[A-Za-z0-9\-]{4,}\b`, main.py 643) -/

/-- The `[A-Za-z0-9\-]` class. -/
def isRefChar (c : Char) : Bool := c.isAlphanum || c == '-'

/-- Character following a cut of the greedy class run at `k` (inside the run,
or the first character after it). -/
def charAfterCut (run r : List Char) (k : Nat) : Option Char :=
  if k < run.length then run.get? k else r.head?

/-- Some backtracking cut `k ≥ 4` of the class run ends on a word boundary. -/
def refCutOk (run r : List Char) : Bool :=
  (List.range (run.length + 1)).any fun k =>
    4 ≤ k &&
      (match run.get? (k - 1), charAfterCut run r k with
       | some a, some b => isWordChar a != isWordChar b
       | some a, none => isWordChar a
       | none, _ => false)

/-- `re.search(r"\b[A-Za-z0-9\-]{4,}\b", t)` as a Boolean scan. -/
def hasOrderRefAux : Bool → List Char → Bool
  | _, [] => false
  | prevW, c :: rest =>
    let here : Bool :=
      if (prevW != isWordChar c) && isRefChar c then
        let (run, r) := (c :: rest).span isRefChar
        refCutOk run r
      else false
    here || hasOrderRefAux (isWordChar c) rest

/-- Whether the utterance contains an order-reference-like token. -/
def hasOrderRef (t : String) : Bool := hasOrderRefAux false t.data

/-! ## Classifiers (main.py 198-232 and 256-266) -/

/-- Flow intents a session can carry; Python's `"return"` is `ret` (the word
is reserved in Lean). The detected intent `"other"` is `Option.none` at use
sites. -/
inductive Intent
  | rent
  | renew
  | ret
deriving DecidableEq, Repr

/-- Failure-shorthand cues (main.py 201). -/
def tlShortKw : List String := ["tl", "t.l", "t l"]

/-- Failure words paired with the shorthand cues (main.py 201). -/
def tlFailKw : List String :=
  ["ne fonctionne", "ne marche", "panne", "cassé", "cassée", "pas marche",
   "pas fonctionner", "ne fonctionne pas", "ne marche pas"]

/-- Rent-intent keywords (main.py 203-210). -/
def rentKw : List String :=
  ["location", "louer", "tire-lait", "tire lait", "tirelait",
   "rent", "rental", "breast pump", "i want to rent", "i would like to rent",
   "استئجار", "تأجير", "أريد استئجار", "أود استئجار", "شفاط"]

/-- Renew-intent keywords (main.py 212-219). -/
def renewKw : List String :=
  ["renouvel", "prolong", "renouveler", "prolongation", "prolonger",
   "renew", "renewal", "extend", "extension", "i want to renew", "i would like to renew",
   "تجديد", "تمديد", "أريد تجديد", "أود تجديد"]

/-- Return-intent keywords (main.py 221-228). -/
def returnKw : List String :=
  ["retour", "rendre", "renvoyer", "restituer", "je veux retourner", "je souhaite retourner",
   "return", "send back", "return item", "i want to return", "i would like to return",
   "إرجاع", "إعادة", "رجوع", "أريد إرجاع", "أود إرجاع"]

/-- `_detect_intent` (main.py 198-230): keyword cascade over the lower-cased
utterance; `none` models the `"other"` result. -/
def _detect_intent (text : String) : Option Intent :=
  let t := lowerStr text
  if tlShortKw.any (fun x => containsSub t x) && tlFailKw.any (fun x => containsSub t x) then
    some .ret
  else if rentKw.any (fun x => containsSub t x) then some .rent
  else if renewKw.any (fun x => containsSub t x) then some .renew
  else if returnKw.any (fun x => containsSub t x) then some .ret
  else none

/-- Affirmation keywords (main.py 260). -/
def affirmKw : List String := ["oui", "yes", "y", "ok", "d\x27accord", "confirm", "confirmé", "نعم"]

/-- `_is_affirmative` (main.py 256-260). -/
def _is_affirmative (t : String) : Bool :=
  if t = "" then false else
  let tt := lowerStr (strTrim t)
  affirmKw.any (fun x => containsSub tt x) || ["o", "yep", "yeah"].contains tt

/-- Negation keywords (main.py 266). -/
def negKw : List String := ["non", "no", "not", "لا"]

/-- `_is_negative` (main.py 262-266). -/
def _is_negative (t : String) : Bool :=
  if t = "" then false else
  let tt := lowerStr (strTrim t)
  negKw.any (fun x => containsSub tt x) || ["n", "nope"].contains tt

/-! ## Data model (main.py 34-58, 252-253) -/

/-- The slot record stored under a session's `details` key. Keys absent from
a freshly written Python dict read back as falsy defaults, so the record is
total with `""`/`[]` standing for "absent or empty". -/
structure Details where
  name : String
  start_date : String
  end_date : String
  postal_code : String
  attachments : List String
deriving DecidableEq, Repr

/-- The all-empty `details` dict written on entering progressive collection
(main.py 288/760) and read back for absent keys. -/
def emptyDetails : Details :=
  { name := "", start_date := "", end_date := "", postal_code := "", attachments := [] }

/-- The `stage` values occurring in the source (`awaiting_details` is only
ever tested, never stored, but the tests are part of the code). -/
inductive Stage
  | asked_confirm
  | collect_details
  | awaiting_details
  | confirm_summary
deriving DecidableEq, Repr

/-- One `SESSION_STATE[sid]` entry. Stored dicts that omit `details` or
`edit` read them back as empty/false, which the embedding realises by always
storing the defaulted values. -/
structure Session where
  intent : Intent
  stage : Stage
  details : Details
  edit : Bool
deriving DecidableEq, Repr

/-- One parsed element of the `messages` JSON payload. -/
structure Message where
  role : String
  content : String
deriving DecidableEq, Repr

/-- The four scalar slots plus the attachments pseudo-slot (the progressive
prompts dict, main.py 497-523). -/
inductive Slot
  | name
  | start_date
  | end_date
  | postal_code
  | attachments
deriving DecidableEq, Repr

/-- Field labels of the batch missing-info reply (main.py 548-553/798-803). -/
inductive BatchField
  | name_firstname
  | date_range
  | postal_code
  | attachments
deriving DecidableEq, Repr

/-- Field labels of the return-flow missing-info reply (main.py 651-655). -/
inductive RetField
  | order_reference
  | choice
  | photo
deriving DecidableEq, Repr

/-- The reply-template catalogue: one constructor per distinct message
template in the source, carrying the template's parameters; the per-language
wording is abstracted away (header note). `fallback` stands for the whole
RAG/LLM tail of the endpoint (main.py 817-866), which never touches session
state. -/
inductive ReplyKind
  | invalidFormat
  | confirmPrompt (i : Intent)
  | returnReasonPrompt
  | cancelled
  | editWhichField
  | editUnrecognized
  | summaryRecap (summary : Details)
  | promptField (f : Slot)
  | missingInfoStepByStep (missing : List BatchField)
  | missingInfoSingleReply (missing : List BatchField)
  | endOfUseReturn
  | returnMissing (missing : List RetField)
  | returnReceived
  | finalSuccess
  | returnInstructions
  | emptyText
  | fallback
deriving DecidableEq, Repr

/-- The `ChatResponse` pydantic model (main.py 50-58), with the reply text
abstracted to its template. -/
structure ChatResponse where
  reply : ReplyKind
  session_id : String
  lang : String
  intent : Option Intent := none
  attachments : Option (List String) := none
  confirm : Bool := false
  summary : Option Details := none
deriving DecidableEq, Repr

/-- Per-turn input to the endpoint. `messages` is the parse result of the
`messages` form field (`none` models an unparseable payload, the `except`
at main.py 154); `lang` is the language resolved by the hint/heuristic/LLM
cascade (external, main.py 191-195); `savedUrls` is what the attachment
store returned for this turn (main.py 235-250, `[]` after any failure);
`freshId` is the `uuid4` this turn would generate. -/
structure TurnInput where
  messages : Option (List Message)
  session_id : Option String
  lang : String
  savedUrls : List String
  freshId : String

/-- Latest user-role message, stripped (main.py 164-168). -/
def userText (ms : List Message) : String :=
  match ms.reverse.find? (fun m => m.role == "user") with
  | some m => strTrim m.content
  | none => ""

/-- `xs or None` on a list field of the response. -/
def listOrNone (l : List String) : Option (List String) :=
  if l.isEmpty then none else some l

/-- The slots still empty, in the fixed order `[name, start_date, end_date,
postal_code]` (main.py 343/525). -/
def missingFields (d : Details) : List Slot :=
  (if d.name = "" then [Slot.name] else []) ++
  (if d.start_date = "" then [Slot.start_date] else []) ++
  (if d.end_date = "" then [Slot.end_date] else []) ++
  (if d.postal_code = "" then [Slot.postal_code] else [])

/-- Python `ds[-1]` on a list of strings (empty-list default `""` is never
hit at use sites, which guard on non-emptiness). -/
def lastD (l : List String) : String := l.reverse.headD ""

/-! ## Dialogue state machine (main.py 139-866) -/

/-- The grouped edit-mode labelled corrections (the four
`_apply_labeled_change(...)` calls, main.py 399-402; the block at 701-744 is
a verbatim duplicate with `_cs`-suffixed names and is modelled by the same
function): each field's label synonyms are searched in `lt` in order and a
successful typed conversion updates that field; `changed` is whether any
field was updated. -/
def _apply_labeled_change (lt : String) (d : Details) : Details × Bool :=
  let n? := labeledValue namePats lt nameConv
  let s? := labeledValue startPats lt dateConv
  let e? := labeledValue endPats lt dateConv
  let p? := labeledValue postalPats lt postalConv
  -- the four label searches read only `lt`, never the dict, so the source's
  -- four sequential in-place updates amount to this single record update
  ({ name := n?.getD d.name, start_date := s?.getD d.start_date,
     end_date := e?.getD d.end_date, postal_code := p?.getD d.postal_code,
     attachments := d.attachments },
   n?.isSome || s?.isSome || e?.isSome || p?.isSome)

/-- Progressive slot filling (main.py 420-446): the incoming utterance is
parsed only against the first missing slot's extractor; the date extractor at
the `start_date` step greedily takes a second date for `end_date` when that
slot is still empty, and at the `end_date` step takes the last date found
(`ds[-1]`). Shared by the edit and non-edit paths of the `collect_details`
branch (the edit path falls through to it after a successful change, with
`missing_order` as computed before the change). -/
def slotUpdate (missing_order : List Slot) (user_text : String) (details : Details) : Details :=
  match missing_order.head? with
  | some .name =>
    let guess := _parse_name user_text
    if guess ≠ "" then { details with name := guess } else details
  | some .start_date =>
    match _parse_dates user_text with
    | [] => details
    | d0 :: rest =>
      let upd := { details with start_date := d0 }
      match rest with
      | d1 :: _ => if details.end_date = "" then { upd with end_date := d1 } else upd
      | [] => upd
  | some .end_date =>
    match _parse_dates user_text with
    | [] => details
    | d0 :: rest => { details with end_date := lastD (d0 :: rest) }
  | some .postal_code =>
    let pc := _parse_postal user_text
    if pc ≠ "" then { details with postal_code := pc } else details
  | some .attachments => details  -- never in `missing_order`
  | none => details

/-- Completion check and reply of the progressive flow (main.py 447-531),
applied after `slotUpdate`. -/
def slotFill (sid lang user_text : String) (prev : Intent)
    (missing_order : List Slot) (details0 : Details) : ChatResponse × Option Session :=
  let details := slotUpdate missing_order user_text details0
  -- completion check (main.py 450-452): all four scalars truthy, and at
  -- least two attachments when the intent requires them
  if details.name ≠ "" ∧ details.start_date ≠ "" ∧ details.end_date ≠ "" ∧ details.postal_code ≠ ""
      ∧ ((prev = .rent ∨ prev = .renew) → 2 ≤ details.attachments.length) then
    let summary : Details :=
      { name := details.name, start_date := details.start_date, end_date := details.end_date,
        postal_code := details.postal_code, attachments := details.attachments }
    ({ reply := .summaryRecap summary, session_id := sid, lang := lang, intent := some prev,
       attachments := listOrNone details.attachments, confirm := true, summary := some summary },
     some { intent := prev, stage := .confirm_summary, details := summary, edit := false })
  else
    let next_missing := missingFields details
    let key :=
      if next_missing = [] ∧ (prev = .rent ∨ prev = .renew) ∧ details.attachments.length < 2
      then Slot.attachments
      else next_missing.headD Slot.attachments
    ({ reply := .promptField key, session_id := sid, lang := lang, intent := some prev,
       attachments := listOrNone details.attachments },
     some { intent := prev, stage := .collect_details, details := details, edit := false })

/-- The `asked_confirm` branch (main.py 284-314). -/
def handleAskedConfirm (sid lang : String) (aff neg : Bool) (saved_urls : List String)
    (s : Session) : ChatResponse × Option Session :=
  let prev := s.intent
  if aff then
    ({ reply := if prev = .ret then .returnReasonPrompt else .promptField .name,
       session_id := sid, lang := lang, intent := some prev, attachments := listOrNone saved_urls },
     some { intent := prev, stage := .collect_details, details := emptyDetails, edit := false })
  else if neg then
    ({ reply := .cancelled, session_id := sid, lang := lang }, none)
  else
    ({ reply := .confirmPrompt prev, session_id := sid, lang := lang }, some s)

/-- The `collect_details` branch (main.py 317-531): attachments of the turn
replace the stored list when non-empty; edit mode handles labelled
corrections first (an empty utterance re-asks which field to edit, an
unrecognised one re-prompts with examples, a successful change falls through
to slot filling with the pre-change `missing_order`). -/
def handleCollect (sid lang user_text : String) (saved_urls : List String)
    (s : Session) : ChatResponse × Option Session :=
  let prev := s.intent
  let details := s.details
  let edit_mode := s.edit
  let missing_order := missingFields details
  let details := if saved_urls.isEmpty then details else { details with attachments := saved_urls }
  if edit_mode then
    if strTrim user_text = "" then
      ({ reply := .editWhichField, session_id := sid, lang := lang, intent := some prev,
         attachments := listOrNone details.attachments },
       some { intent := prev, stage := .collect_details, details := details, edit := true })
    else
      let r := _apply_labeled_change (strTrim user_text) details
      if !r.2 then
        ({ reply := .editUnrecognized, session_id := sid, lang := lang, intent := some prev,
           attachments := listOrNone r.1.attachments },
         some { intent := prev, stage := .collect_details, details := r.1, edit := true })
      else slotFill sid lang user_text prev missing_order r.1
  else slotFill sid lang user_text prev missing_order details

/-- Issue words of the return sub-flow (main.py 622). -/
def issueKw : List String :=
  ["ne fonctionne", "ne marche", "panne", "cass", "n\x27aspire", "aspire pas", "problem",
   "problème", "issue", "not working", "broken", "doesn\x27t", "does not", "لا يعمل", "معطل"]

/-- End-of-use words of the return sub-flow (main.py 623). -/
def endKw : List String :=
  ["fin", "fin d\x27utilisation", "plus besoin", "rendre", "restituer", "retour simple",
   "etiquette", "étiquette", "label", "chronopost", "déposer", "depot", "retourner le",
   "انتهاء", "إرجاع", "إعادة", "رجوع"]

/-- Exchange/refund choice words of the return sub-flow (main.py 645). -/
def choiceKw : List String :=
  ["echange", "échange", "remboursement", "exchange", "refund", "rembourse"]

/-- The missing-field computation of the batch (`awaiting_details`) rent and
renew flow (main.py 537-545 and 784-795, identical checks). -/
def batchMissing (user_text : String) (saved_urls : List String) : List BatchField :=
  (if (pySplitWs user_text).length < 2 then [BatchField.name_firstname] else []) ++
  (if (_parse_dates user_text).length < 2 then [BatchField.date_range] else []) ++
  (if _parse_postal user_text = "" then [BatchField.postal_code] else []) ++
  (if saved_urls.length < 2 then [BatchField.attachments] else [])

/-- The `awaiting_details` branch (main.py 533-662). This stage is never
stored by any transition of the source, but the branch is live code. -/
def handleAwaiting (sid lang user_text : String) (saved_urls : List String)
    (s : Session) : ChatResponse × Option Session :=
  let prev := s.intent
  match prev with
  | .ret =>
    let lt := lowerStr user_text
    let has_issue := issueKw.any (fun x => containsSub lt x)
    let has_end := endKw.any (fun x => containsSub lt x)
    if has_end && !has_issue then
      ({ reply := .endOfUseReturn, session_id := sid, lang := lang, intent := some prev }, none)
    else
      let opt_missing : List RetField :=
        (if !hasOrderRef user_text then [RetField.order_reference] else []) ++
        (if !(choiceKw.any (fun x => containsSub lt x)) then [RetField.choice] else []) ++
        (if saved_urls.length < 1 then [RetField.photo] else [])
      if opt_missing ≠ [] then
        ({ reply := .returnMissing opt_missing, session_id := sid, lang := lang,
           intent := some prev, attachments := listOrNone saved_urls }, some s)
      else
        ({ reply := .returnReceived, session_id := sid, lang := lang, intent := some prev }, none)
  | _ =>
    let missing := batchMissing user_text saved_urls
    if missing ≠ [] then
      let looks_single := _parse_postal user_text ≠ "" ∨ _parse_dates user_text ≠ []
        ∨ (pySplitWs user_text).length ≤ 4
      ({ reply := .missingInfoStepByStep missing, session_id := sid, lang := lang,
         intent := some prev, attachments := listOrNone saved_urls },
       if looks_single ∨ containsSub (lowerStr user_text) "ligne"
          ∨ containsSub (lowerStr user_text) "step" ∨ containsSub (lowerStr user_text) "line" then
         some { intent := prev, stage := .collect_details,
                details := { name := "", start_date := "", end_date := "", postal_code := "",
                             attachments := saved_urls }, edit := false }
       else some s)
    else
      -- `re.split(r"\s+", user_text.strip())` with empty pieces dropped is the
      -- same token list as `user_text.split()`
      let words := pySplitWs user_text
      let name_guess := match words with | w0 :: w1 :: _ => w0 ++ " " ++ w1 | _ => ""
      let dates_found := _parse_dates user_text
      let sd_ed := match dates_found with | d0 :: d1 :: _ => (d0, d1) | _ => ("", "")
      let summary : Details :=
        { name := name_guess, start_date := sd_ed.1, end_date := sd_ed.2,
          postal_code := _parse_postal user_text, attachments := saved_urls }
      ({ reply := .summaryRecap summary, session_id := sid, lang := lang, intent := some prev,
         attachments := listOrNone saved_urls, confirm := true, summary := some summary },
       some { intent := prev, stage := .confirm_summary, details := summary, edit := false })

/-- The default tail of the intent block (main.py 812-815): (re)ask the
confirmation question for the freshly detected intent. -/
def intentDefault (sid lang : String) (i : Intent) : ChatResponse × Option Session :=
  ({ reply := .confirmPrompt i, session_id := sid, lang := lang },
   some { intent := i, stage := .asked_confirm, details := emptyDetails, edit := false })

/-- Tail of the intent block after the `confirm_summary` handler (main.py
757-815): the inner `asked_confirm` and `awaiting_details` handlers (both
shadowed by the top-level branches in the full flow, but present in the
source) and the default confirmation question. -/
def intentBlockRest (sid lang user_text : String) (i : Intent) (aff neg : Bool)
    (saved_urls : List String) (state : Option Session) : ChatResponse × Option Session :=
  match state with
  | some s =>
    match s.stage with
    | .asked_confirm =>
      if aff then
        ({ reply := if i = .ret then .returnInstructions else .promptField .name,
           session_id := sid, lang := lang, intent := some i, attachments := listOrNone saved_urls },
         some { intent := i, stage := .collect_details, details := emptyDetails, edit := false })
      else if neg then
        ({ reply := .cancelled, session_id := sid, lang := lang }, none)
      else
        ({ reply := .confirmPrompt i, session_id := sid, lang := lang }, some s)
    | .awaiting_details =>
      match i with
      | .ret => intentDefault sid lang i
      | _ =>
        let missing := batchMissing user_text saved_urls
        if missing ≠ [] then
          ({ reply := .missingInfoSingleReply missing, session_id := sid, lang := lang,
             intent := some i, attachments := listOrNone saved_urls }, some s)
        else
          ({ reply := .finalSuccess, session_id := sid, lang := lang, intent := some i }, none)
    | _ => intentDefault sid lang i
  | none => intentDefault sid lang i

/-- The intent block (main.py 664-815), entered when the detected intent is
rent/renew/return: handles a pending summary confirmation (affirmative
removes the session with the final success reply; negative re-enters
collection in edit mode; otherwise inline labelled corrections re-render the
summary when one applies), then falls through to `intentBlockRest`. -/
def intentBlock (sid lang user_text : String) (i : Intent) (aff neg : Bool)
    (saved_urls : List String) (state : Option Session) : ChatResponse × Option Session :=
  match state with
  | some s =>
    if s.stage = .confirm_summary then
      let prev := s.intent
      if aff then
        ({ reply := .finalSuccess, session_id := sid, lang := lang, intent := some prev }, none)
      else if neg then
        let current := s.details
        ({ reply := .editWhichField, session_id := sid, lang := lang, intent := some prev,
           attachments := listOrNone current.attachments },
         some { intent := prev, stage := .collect_details, details := current, edit := true })
      else
        let r := _apply_labeled_change (strTrim user_text) s.details
        if r.2 then
          let summary : Details :=
            { name := r.1.name, start_date := r.1.start_date, end_date := r.1.end_date,
              postal_code := r.1.postal_code, attachments := r.1.attachments }
          ({ reply := .emptyText, session_id := sid, lang := lang, intent := some prev,
             attachments := listOrNone summary.attachments, confirm := true, summary := some summary },
           some { intent := prev, stage := .confirm_summary, details := summary, edit := false })
        else intentBlockRest sid lang user_text i aff neg saved_urls state
    else intentBlockRest sid lang user_text i aff neg saved_urls state
  | none => intentBlockRest sid lang user_text i aff neg saved_urls state

/-- Everything after the intent-restart guard (main.py 283-866): the
stage-driven branches, then the intent block, then the RAG/LLM fallback
(which leaves session state untouched). -/
def chatStages (sid lang user_text : String) (intent : Option Intent) (aff neg : Bool)
    (saved_urls : List String) (state : Option Session) : ChatResponse × Option Session :=
  match state with
  | some s =>
    match s.stage with
    | .asked_confirm => handleAskedConfirm sid lang aff neg saved_urls s
    | .collect_details => handleCollect sid lang user_text saved_urls s
    | .awaiting_details => handleAwaiting sid lang user_text saved_urls s
    | .confirm_summary =>
      match intent with
      | some i => intentBlock sid lang user_text i aff neg saved_urls state
      | none => ({ reply := .fallback, session_id := sid, lang := lang }, state)
  | none =>
    match intent with
    | some i => intentBlock sid lang user_text i aff neg saved_urls state
    | none => ({ reply := .fallback, session_id := sid, lang := lang }, state)

/-- One `chat` turn (main.py 139-866) as a pure transition on the stored
session entry for the turn's session id (the only key the endpoint touches).
An unparseable payload short-circuits before any session access; otherwise
the intent-restart guard (main.py 270-281) runs before any stage handling. -/
def chat (inp : TurnInput) (state : Option Session) : ChatResponse × Option Session :=
  match inp.messages with
  | none =>
    ({ reply := .invalidFormat, session_id := inp.session_id.getD inp.freshId, lang := "fr" },
     state)
  | some msgs =>
    let sid := inp.session_id.getD inp.freshId
    let user_text := userText msgs
    let intent := _detect_intent user_text
    let aff := _is_affirmative user_text
    let neg := _is_negative user_text
    match intent with
    | some i =>
      if !aff && !neg then
        ({ reply := .confirmPrompt i, session_id := sid, lang := inp.lang },
         some { intent := i, stage := .asked_confirm, details := emptyDetails, edit := false })
      else chatStages sid inp.lang user_text intent aff neg inp.savedUrls state
    | none => chatStages sid inp.lang user_text intent aff neg inp.savedUrls state

/-! ## Derived notions used to state the claims -/

/-- Position of the first missing slot in the fixed order
`[name, start_date, end_date, postal_code]` (4 when none is missing): the
"next missing slot" pointer of the progressive flow. -/
def firstMissingIdx (d : Details) : Nat :=
  if d.name = "" then 0
  else if d.start_date = "" then 1
  else if d.end_date = "" then 2
  else if d.postal_code = "" then 3
  else 4

/-- The confirm-summary invariant of the specification: at `confirm_summary`
the four scalar slots are non-empty and, for rent/renew intents, at least two
attachments are stored. -/
def SessionInv (s : Session) : Prop :=
  s.stage = .confirm_summary →
    s.details.name ≠ "" ∧ s.details.start_date ≠ "" ∧ s.details.end_date ≠ "" ∧
    s.details.postal_code ≠ "" ∧
    ((s.intent = .rent ∨ s.intent = .renew) → 2 ≤ s.details.attachments.length)

/-- The invariant lifted to a stored entry. -/
def StoreInv (o : Option Session) : Prop := ∀ s, o = some s → SessionInv s

/-- Session entries reachable from the empty store by any sequence of turns
with arbitrary inputs. -/
inductive Reachable : Option Session → Prop
  | init : Reachable none
  | step (inp : TurnInput) {st : Option Session} : Reachable st → Reachable (chat inp st).2

/-- The name parser exactly as the specification sentence states it: with a
separator present, the first two non-empty segments or else empty; without
one, the first two whitespace tokens provided the whole input is under 80
characters, and empty in every other case. (Spec-side definition, for
comparison with `_parse_name`.) -/
def parse_name_claimed (t : String) : String :=
  if containsSub t "," then
    let segs := ((t.data.splitOn ',').map (fun l => strTrim (String.mk l))).filter (· ≠ "")
    match segs with
    | p0 :: p1 :: _ => p0 ++ " " ++ p1
    | _ => ""
  else
    let toks := pySplitWs t
    if t.length < 80 then
      match toks with
      | p0 :: p1 :: _ => p0 ++ " " ++ p1
      | _ => ""
    else ""

/-- The amended reading of the name-parser sentence: the comma branch applies
only when it yields two non-empty segments (otherwise the whitespace branch
is still tried), and the length ceiling is "whitespace-normalised join of at
most 80 characters" rather than "whole input under 80". (Spec-side
definition, for comparison with `_parse_name`.) -/
def parse_name_amended (t : String) : String :=
  let segs := ((t.data.splitOn ',').map (fun l => strTrim (String.mk l))).filter (· ≠ "")
  if containsSub t "," ∧ 2 ≤ segs.length then
    segs.headD "" ++ " " ++ (segs.tail.headD "")
  else
    let toks := pySplitWs (strTrim t)
    if 2 ≤ toks.length ∧ (String.intercalate " " toks).length ≤ 80 then
      toks.headD "" ++ " " ++ (toks.tail.headD "")
    else ""

/-! ## Concrete fixtures for counterexamples and witnesses -/

/-- A one-user-message turn with the given utterance and uploads. -/
def mkTurn (t : String) (urls : List String := []) : TurnInput :=
  { messages := some [{ role := "user", content := t }], session_id := some "k",
    lang := "fr", savedUrls := urls, freshId := "F" }

/-- A fully collected rent order. -/
def fullDetails : Details :=
  { name := "Dupont Marie", start_date := "22/01/2026", end_date := "29/01/2026",
    postal_code := "75001", attachments := ["/uploads/a.pdf", "/uploads/b.pdf"] }

/-- A rent session awaiting summary confirmation. -/
def confirmSession : Session :=
  { intent := .rent, stage := .confirm_summary, details := fullDetails, edit := false }

/-- A collect-stage rent session whose stored name happens to read as intent
keywords. -/
def guardTrapSession : Session :=
  { intent := .rent, stage := .collect_details,
    details := { name := "louer retour", start_date := "", end_date := "",
                 postal_code := "", attachments := [] },
    edit := false }

/-- A collect-stage rent session with slot progress, for the guard-precedence
witness. -/
def rentProgressSession : Session :=
  { intent := .rent, stage := .collect_details,
    details := { name := "Dupont Marie", start_date := "22/01/2026", end_date := "",
                 postal_code := "", attachments := [] },
    edit := false }

/-- An input whose whitespace-normalised join is short but whose raw length
exceeds the claimed 80-character ceiling. -/
def c9LongInput : String := "a" ++ String.mk (List.replicate 100 ' ') ++ "b"

/-- An input of exactly 80 characters (boundary of the claimed "under 80"). -/
def c9Len80Input : String :=
  String.mk (List.replicate 40 'a') ++ " " ++ String.mk (List.replicate 39 'b')

/-- The single-message full submission of the round-trip claim. -/
def singleShotMsg : String := "Dupont Marie 22/01/2026 29/01/2026 75001"

/-- Intermediate states of the end-to-end scenario (used to exhibit a
reachable `confirm_summary` entry). -/
def sessAsked : Session :=
  { intent := .rent, stage := .asked_confirm, details := emptyDetails, edit := false }

/-- Scenario state after confirming the rent intent. -/
def sessCollect0 : Session :=
  { intent := .rent, stage := .collect_details, details := emptyDetails, edit := false }

/-- Scenario state after the name turn. -/
def sessName : Session :=
  { intent := .rent, stage := .collect_details,
    details := { emptyDetails with name := "Dupont Marie" }, edit := false }

/-- Scenario state after the dates turn. -/
def sessDates : Session :=
  { intent := .rent, stage := .collect_details,
    details := { emptyDetails with
                 name := "Dupont Marie"
                 start_date := "22/01/2026"
                 end_date := "29/01/2026" },
    edit := false }

/-- Scenario state with only name and start date collected (the next missing
slot is the end date). -/
def sessStartOnly : Session :=
  { intent := .rent, stage := .collect_details,
    details := { name := "Dupont Marie", start_date := "22/01/2026", end_date := "",
                 postal_code := "", attachments := [] },
    edit := false }

/-- A collect-stage session that already stores an attachment from an earlier
turn. -/
def priorAttachSession : Session :=
  { intent := .rent, stage := .collect_details,
    details := { name := "", start_date := "", end_date := "", postal_code := "",
                 attachments := ["/uploads/old.pdf"] },
    edit := false }

/-! ## Basic facts about the extractors -/

lemma mk_eq_empty_iff (l : List Char) : String.mk l = "" ↔ l = [] := by
  constructor
  · intro h
    have := congrArg String.data h
    simpa using this
  · intro h
    rw [h]

lemma append_space_ne_empty (a b : String) : a ++ " " ++ b ≠ "" := by
  intro h
  have h2 : (a ++ " " ++ b).data = ("" : String).data := by rw [h]
  cases a with
  | mk la =>
    cases b with
    | mk lb => simp [String.data] at h2

lemma dateTokenAt_tok_ne_nil {cs : List Char} {tok r : List Char}
    (h : dateTokenAt cs = some (tok, r)) : tok ≠ [] := by
  intro htok
  subst htok
  unfold dateTokenAt at h
  repeat' split at h
  all_goals simp_all

lemma mem_findDatesAux_ne_empty :
    ∀ (fuel : Nat) (w : Bool) (cs : List Char) (x : String),
      x ∈ findDatesAux fuel w cs → x ≠ "" := by
  intro fuel
  induction fuel with
  | zero => intro w cs x h; simp [findDatesAux] at h
  | succ n ih =>
    intro w cs x h
    cases cs with
    | nil => simp [findDatesAux] at h
    | cons c rest =>
      rw [findDatesAux] at h
      split at h
      · cases hd : dateTokenAt (c :: rest) with
        | none => rw [hd] at h; exact ih _ _ _ h
        | some pr =>
          rw [hd] at h
          rcases List.mem_cons.mp h with h1 | h2
          · subst h1
            intro he
            exact dateTokenAt_tok_ne_nil hd ((mk_eq_empty_iff _).mp he)
          · exact ih _ _ _ h2
      · exact ih _ _ _ h

lemma mem_parse_dates_ne_empty {t x : String} (h : x ∈ _parse_dates t) : x ≠ "" :=
  mem_findDatesAux_ne_empty _ _ _ _ h

lemma labeledValue_ne_empty {lt : String} {conv : String → Option String}
    (hconv : ∀ v x, conv v = some x → x ≠ "") :
    ∀ (pats : List String) (x : String), labeledValue pats lt conv = some x → x ≠ "" := by
  intro pats
  induction pats with
  | nil => intro x h; simp [labeledValue] at h
  | cons p ps ih =>
    intro x h
    simp only [labeledValue, List.findSome?_cons] at h ih
    cases hf : (searchLabeled p lt).bind (fun raw => conv (strTrim raw)) with
    | some v =>
      rw [hf] at h
      simp only [Option.some.injEq] at h
      subst h
      obtain ⟨raw, _, hcv⟩ := Option.bind_eq_some.mp hf
      exact hconv _ _ hcv
    | none =>
      rw [hf] at h
      exact ih x h

lemma nameConv_ne_empty : ∀ v x, nameConv v = some x → x ≠ "" := by
  intro v x h
  unfold nameConv at h
  dsimp only at h
  split at h
  · simp at h
  · next hne =>
    simp only [Option.some.injEq] at h
    subst h
    exact hne

lemma dateConv_ne_empty : ∀ v x, dateConv v = some x → x ≠ "" := by
  intro v x h
  unfold dateConv at h
  cases hl : _parse_dates v with
  | nil => rw [hl] at h; simp at h
  | cons a as =>
    rw [hl] at h
    simp only [List.head?_cons, Option.some.injEq] at h
    subst h
    exact mem_parse_dates_ne_empty (hl ▸ List.mem_cons_self _ _)

lemma postalConv_ne_empty : ∀ v x, postalConv v = some x → x ≠ "" := by
  intro v x h
  unfold postalConv at h
  dsimp only at h
  split at h
  · simp at h
  · next hne =>
    simp only [Option.some.injEq] at h
    subst h
    exact hne

/-! ## Facts about the labelled corrections and the slot update -/

lemma apply_labeled_attachments (lt : String) (d : Details) :
    ((_apply_labeled_change lt d).1).attachments = d.attachments := rfl

lemma apply_labeled_fields_ne_empty (lt : String) (d : Details) :
    (d.name ≠ "" → ((_apply_labeled_change lt d).1).name ≠ "") ∧
    (d.start_date ≠ "" → ((_apply_labeled_change lt d).1).start_date ≠ "") ∧
    (d.end_date ≠ "" → ((_apply_labeled_change lt d).1).end_date ≠ "") ∧
    (d.postal_code ≠ "" → ((_apply_labeled_change lt d).1).postal_code ≠ "") := by
  unfold _apply_labeled_change
  refine ⟨?_, ?_, ?_, ?_⟩ <;> intro hne <;> dsimp only
  · cases hn : labeledValue namePats lt nameConv with
    | none => simpa [hn] using hne
    | some v =>
      simp only [hn, Option.getD_some]
      exact labeledValue_ne_empty nameConv_ne_empty _ _ hn
  · cases hn : labeledValue startPats lt dateConv with
    | none => simpa [hn] using hne
    | some v =>
      simp only [hn, Option.getD_some]
      exact labeledValue_ne_empty dateConv_ne_empty _ _ hn
  · cases hn : labeledValue endPats lt dateConv with
    | none => simpa [hn] using hne
    | some v =>
      simp only [hn, Option.getD_some]
      exact labeledValue_ne_empty dateConv_ne_empty _ _ hn
  · cases hn : labeledValue postalPats lt postalConv with
    | none => simpa [hn] using hne
    | some v =>
      simp only [hn, Option.getD_some]
      exact labeledValue_ne_empty postalConv_ne_empty _ _ hn

lemma missingFields_head (d : Details) :
    (missingFields d).head? =
      (if d.name = "" then some Slot.name
       else if d.start_date = "" then some Slot.start_date
       else if d.end_date = "" then some Slot.end_date
       else if d.postal_code = "" then some Slot.postal_code
       else none) := by
  by_cases h1 : d.name = "" <;> by_cases h2 : d.start_date = "" <;>
    by_cases h3 : d.end_date = "" <;> by_cases h4 : d.postal_code = "" <;>
    simp [missingFields, h1, h2, h3, h4]

lemma slotUpdate_attachments (mo : List Slot) (u : String) (d : Details) :
    (slotUpdate mo u d).attachments = d.attachments := by
  unfold slotUpdate
  dsimp only
  repeat' split
  all_goals rfl

lemma slotUpdate_preserves (u : String) (d : Details) :
    (d.name ≠ "" → (slotUpdate (missingFields d) u d).name = d.name) ∧
    (d.start_date ≠ "" → (slotUpdate (missingFields d) u d).start_date = d.start_date) ∧
    (d.end_date ≠ "" → (slotUpdate (missingFields d) u d).end_date = d.end_date) ∧
    (d.postal_code ≠ "" → (slotUpdate (missingFields d) u d).postal_code = d.postal_code) := by
  by_cases h1 : d.name = "" <;> by_cases h2 : d.start_date = "" <;>
    by_cases h3 : d.end_date = "" <;> by_cases h4 : d.postal_code = "" <;>
    simp only [slotUpdate, missingFields_head, h1, h2, h3, h4, if_true, if_false,
      ite_true, ite_false] <;>
    refine ⟨?_, ?_, ?_, ?_⟩ <;> intro hne <;>
    first
      | exact (hne rfl).elim
      | trivial
      | (repeat' split) <;> first | exact (hne rfl).elim | rfl

lemma findPostalAux_ne_empty :
    ∀ (w : Bool) (cs : List Char) (s : String), findPostalAux w cs = some s → s ≠ "" := by
  intro w cs
  induction cs generalizing w with
  | nil => intro s h; simp [findPostalAux] at h
  | cons c rest ih =>
    intro s h
    rw [findPostalAux] at h
    dsimp only at h
    split at h
    · split at h
      · next hlen =>
        simp only [Option.some.injEq] at h
        subst h
        intro he
        have hnil := (mk_eq_empty_iff _).mp he
        rw [hnil] at hlen
        simp at hlen
      · exact ih _ _ h
    · exact ih _ _ h

lemma missingFields_set_attachments (d : Details) (l : List String) :
    missingFields { d with attachments := l } = missingFields d := rfl

lemma slotFill_snd (sid lang u : String) (prev : Intent) (mo : List Slot) (d : Details) :
    ∃ st : Stage, (slotFill sid lang u prev mo d).2 =
      some { intent := prev, stage := st, details := slotUpdate mo u d, edit := false } := by
  unfold slotFill
  dsimp only
  split
  · exact ⟨.confirm_summary, rfl⟩
  · exact ⟨.collect_details, rfl⟩

lemma firstMissingIdx_le {d d' : Details}
    (hn : d.name ≠ "" → d'.name ≠ "") (hs : d.start_date ≠ "" → d'.start_date ≠ "")
    (he : d.end_date ≠ "" → d'.end_date ≠ "") (hp : d.postal_code ≠ "" → d'.postal_code ≠ "") :
    firstMissingIdx d ≤ firstMissingIdx d' := by
  by_cases h1 : d.name = ""
  · simp [firstMissingIdx, h1]
  · have hn' := hn h1
    by_cases h2 : d.start_date = ""
    · have hd : firstMissingIdx d = 1 := by simp [firstMissingIdx, h1, h2]
      have hd' : 1 ≤ firstMissingIdx d' := by
        simp only [firstMissingIdx, hn', if_false, ite_false]
        split_ifs <;> omega
      omega
    · have hs' := hs h2
      by_cases h3 : d.end_date = ""
      · have hd : firstMissingIdx d = 2 := by simp [firstMissingIdx, h1, h2, h3]
        have hd' : 2 ≤ firstMissingIdx d' := by
          simp only [firstMissingIdx, hn', hs', if_false, ite_false]
          split_ifs <;> omega
        omega
      · have he' := he h3
        by_cases h4 : d.postal_code = ""
        · have hd : firstMissingIdx d = 3 := by simp [firstMissingIdx, h1, h2, h3, h4]
          have hd' : 3 ≤ firstMissingIdx d' := by
            simp only [firstMissingIdx, hn', hs', he', if_false, ite_false]
            split_ifs <;> omega
          omega
        · have hp' := hp h4
          have hd : firstMissingIdx d = 4 := by simp [firstMissingIdx, h1, h2, h3, h4]
          have hd' : firstMissingIdx d' = 4 := by simp [firstMissingIdx, hn', hs', he', hp']
          omega

lemma handleCollect_nonedit (sid lang u : String) (urls : List String) (s : Session)
    (he : s.edit = false) :
    handleCollect sid lang u urls s =
      slotFill sid lang u s.intent (missingFields s.details)
        (if urls.isEmpty then s.details else { s.details with attachments := urls }) := by
  unfold handleCollect
  rw [he]
  rfl

lemma handleCollect_preserves_filled (sid lang u : String) (urls : List String) (s : Session)
    (he : s.edit = false) :
    ∃ s', (handleCollect sid lang u urls s).2 = some s' ∧
      (s.details.name ≠ "" → s'.details.name = s.details.name) ∧
      (s.details.start_date ≠ "" → s'.details.start_date = s.details.start_date) ∧
      (s.details.end_date ≠ "" → s'.details.end_date = s.details.end_date) ∧
      (s.details.postal_code ≠ "" → s'.details.postal_code = s.details.postal_code) ∧
      firstMissingIdx s.details ≤ firstMissingIdx s'.details := by
  rw [handleCollect_nonedit sid lang u urls s he]
  by_cases hu : urls.isEmpty
  · rw [if_pos hu]
    obtain ⟨st, hst⟩ := slotFill_snd sid lang u s.intent (missingFields s.details) s.details
    obtain ⟨p1, p2, p3, p4⟩ := slotUpdate_preserves u s.details
    refine ⟨_, hst, ?_, ?_, ?_, ?_, ?_⟩ <;> dsimp only
    · exact p1
    · exact p2
    · exact p3
    · exact p4
    · exact firstMissingIdx_le (fun h => by rw [p1 h]; exact h) (fun h => by rw [p2 h]; exact h)
        (fun h => by rw [p3 h]; exact h) (fun h => by rw [p4 h]; exact h)
  · rw [if_neg hu]
    have hmo : missingFields s.details = missingFields { s.details with attachments := urls } := rfl
    rw [hmo]
    obtain ⟨st, hst⟩ := slotFill_snd sid lang u s.intent
      (missingFields { s.details with attachments := urls }) { s.details with attachments := urls }
    obtain ⟨p1, p2, p3, p4⟩ := slotUpdate_preserves u { s.details with attachments := urls }
    refine ⟨_, hst, ?_, ?_, ?_, ?_, ?_⟩ <;> dsimp only
    · exact p1
    · exact p2
    · exact p3
    · exact p4
    · exact firstMissingIdx_le (fun h => by rw [p1 h]; exact h) (fun h => by rw [p2 h]; exact h)
        (fun h => by rw [p3 h]; exact h) (fun h => by rw [p4 h]; exact h)

lemma handleCollect_attachments (sid lang u : String) (urls : List String) (s : Session)
    (hurls : urls ≠ []) :
    ∃ s', (handleCollect sid lang u urls s).2 = some s' ∧ s'.details.attachments = urls := by
  have hne : urls.isEmpty = false := by
    cases urls
    · exact absurd rfl hurls
    · rfl
  unfold handleCollect
  dsimp only
  rw [hne]
  simp only [Bool.false_eq_true, if_false, ite_false]
  cases hsedit : s.edit
  · simp only [Bool.false_eq_true, if_false, ite_false]
    obtain ⟨st, hst⟩ := slotFill_snd sid lang u s.intent (missingFields s.details)
      { s.details with attachments := urls }
    refine ⟨_, hst, ?_⟩
    dsimp only
    rw [slotUpdate_attachments]
  · simp only [if_true, ite_true]
    split
    · exact ⟨_, rfl, rfl⟩
    · split
      · refine ⟨_, rfl, ?_⟩
        dsimp only
        rw [apply_labeled_attachments]
      · obtain ⟨st, hst⟩ := slotFill_snd sid lang u s.intent (missingFields s.details)
          (_apply_labeled_change (strTrim u) { s.details with attachments := urls }).1
        refine ⟨_, hst, ?_⟩
        dsimp only
        rw [slotUpdate_attachments, apply_labeled_attachments]

/-! ## The confirm-summary invariant is preserved by every turn -/

lemma storeInv_slotFill (sid lang u : String) (prev : Intent) (mo : List Slot) (d : Details) :
    ∀ s', (slotFill sid lang u prev mo d).2 = some s' → SessionInv s' := by
  intro s' h
  unfold slotFill at h
  dsimp only at h
  split at h
  · next hall =>
    simp only [Option.some.injEq] at h
    subst h
    intro _
    exact ⟨hall.1, hall.2.1, hall.2.2.1, hall.2.2.2.1, hall.2.2.2.2⟩
  · simp only [Option.some.injEq] at h
    subst h
    intro hst
    simp at hst


lemma storeInv_handleCollect (sid lang u : String) (urls : List String) (s : Session) :
    ∀ s', (handleCollect sid lang u urls s).2 = some s' → SessionInv s' := by
  intro s' h
  unfold handleCollect at h
  dsimp only at h
  split_ifs at h
  all_goals first
    | exact storeInv_slotFill _ _ _ _ _ _ _ h
    | (simp only [Option.some.injEq] at h; subst h; intro hst; simp at hst; done)

lemma storeInv_handleAskedConfirm (sid lang : String) (aff neg : Bool) (urls : List String)
    (s : Session) (hstage : s.stage = .asked_confirm) :
    ∀ s', (handleAskedConfirm sid lang aff neg urls s).2 = some s' → SessionInv s' := by
  intro s' h
  unfold handleAskedConfirm at h
  dsimp only at h
  split_ifs at h
  all_goals first
    | (simp at h; done)
    | (simp only [Option.some.injEq] at h; subst h; intro hst; simp at hst; done)
    | (simp only [Option.some.injEq] at h; subst h; intro hst; rw [hstage] at hst;
       simp at hst; done)

lemma batchMissing_nil {u : String} {urls : List String} (h : batchMissing u urls = []) :
    2 ≤ (pySplitWs u).length ∧ 2 ≤ (_parse_dates u).length ∧
    _parse_postal u ≠ "" ∧ 2 ≤ urls.length := by
  unfold batchMissing at h
  split_ifs at h with h1 h2 h3 h4
  all_goals simp_all [Nat.not_lt]


lemma storeInv_handleAwaiting (sid lang u : String) (urls : List String) (s : Session)
    (hstage : s.stage = .awaiting_details) :
    ∀ s', (handleAwaiting sid lang u urls s).2 = some s' → SessionInv s' := by
  intro s' h
  unfold handleAwaiting at h
  cases hI : s.intent
  all_goals rw [hI] at h
  all_goals dsimp only at h
  all_goals split_ifs at h
  any_goals first
    | (simp at h; done)
    | (simp only [Option.some.injEq] at h; subst h; intro hst; simp at hst; done)
    | (simp only [Option.some.injEq] at h; subst h; intro hst; rw [hstage] at hst;
       simp at hst; done)
  all_goals rename_i hmiss
  all_goals simp only [Option.some.injEq] at h
  all_goals subst h
  all_goals intro _
  all_goals rw [not_not] at hmiss
  all_goals obtain ⟨hw, hd, hp, hu2⟩ := batchMissing_nil hmiss
  all_goals refine ⟨?_, ?_, ?_, hp, fun _ => hu2⟩
  all_goals dsimp only
  · cases hws : pySplitWs u with
    | nil => rw [hws] at hw; simp at hw
    | cons w0 ws =>
      cases ws with
      | nil => rw [hws] at hw; simp at hw
      | cons w1 ws2 =>
        exact append_space_ne_empty w0 w1
  · cases hds : _parse_dates u with
    | nil => rw [hds] at hd; simp at hd
    | cons d0 ds =>
      cases ds with
      | nil => rw [hds] at hd; simp at hd
      | cons d1 ds2 =>
        refine mem_parse_dates_ne_empty (t := u) (x := d0) ?_
        rw [hds]
        exact List.mem_cons_self _ _
  · cases hds : _parse_dates u with
    | nil => rw [hds] at hd; simp at hd
    | cons d0 ds =>
      cases ds with
      | nil => rw [hds] at hd; simp at hd
      | cons d1 ds2 =>
        refine mem_parse_dates_ne_empty (t := u) (x := d1) ?_
        rw [hds]
        exact List.mem_cons_of_mem _ (List.mem_cons_self _ _)
  · cases hws : pySplitWs u with
    | nil => rw [hws] at hw; simp at hw
    | cons w0 ws =>
      cases ws with
      | nil => rw [hws] at hw; simp at hw
      | cons w1 ws2 =>
        exact append_space_ne_empty w0 w1
  · cases hds : _parse_dates u with
    | nil => rw [hds] at hd; simp at hd
    | cons d0 ds =>
      cases ds with
      | nil => rw [hds] at hd; simp at hd
      | cons d1 ds2 =>
        refine mem_parse_dates_ne_empty (t := u) (x := d0) ?_
        rw [hds]
        exact List.mem_cons_self _ _
  · cases hds : _parse_dates u with
    | nil => rw [hds] at hd; simp at hd
    | cons d0 ds =>
      cases ds with
      | nil => rw [hds] at hd; simp at hd
      | cons d1 ds2 =>
        refine mem_parse_dates_ne_empty (t := u) (x := d1) ?_
        rw [hds]
        exact List.mem_cons_of_mem _ (List.mem_cons_self _ _)


lemma storeInv_intentBlockRest (sid lang u : String) (i : Intent) (aff neg : Bool)
    (urls : List String) (state : Option Session) (hInv : StoreInv state) :
    ∀ s', (intentBlockRest sid lang u i aff neg urls state).2 = some s' → SessionInv s' := by
  intro s' h
  unfold intentBlockRest intentDefault at h
  cases state with
  | none =>
    dsimp only at h
    simp only [Option.some.injEq] at h
    subst h
    intro hst
    simp at hst
  | some s =>
    dsimp only at h
    cases hstage : s.stage
    all_goals rw [hstage] at h
    all_goals dsimp only at h
    · split_ifs at h
      all_goals first
        | (simp at h; done)
        | (simp only [Option.some.injEq] at h; subst h; intro hst; simp at hst; done)
        | (simp only [Option.some.injEq] at h; subst h; exact hInv s rfl)
    · simp only [Option.some.injEq] at h
      subst h
      intro hst
      simp at hst
    · cases i
      all_goals try dsimp only at h
      all_goals try split_ifs at h
      all_goals first
        | (simp at h; done)
        | (simp only [Option.some.injEq] at h; subst h; intro hst; simp at hst; done)
        | (simp only [Option.some.injEq] at h; subst h; exact hInv s rfl)
    · simp only [Option.some.injEq] at h
      subst h
      intro hst
      simp at hst

lemma storeInv_intentBlock (sid lang u : String) (i : Intent) (aff neg : Bool)
    (urls : List String) (state : Option Session) (hInv : StoreInv state) :
    ∀ s', (intentBlock sid lang u i aff neg urls state).2 = some s' → SessionInv s' := by
  intro s' h
  unfold intentBlock at h
  cases state with
  | none => exact storeInv_intentBlockRest sid lang u i aff neg urls none hInv _ h
  | some s =>
    dsimp only at h
    by_cases hconf : s.stage = .confirm_summary
    · rw [if_pos hconf] at h
      try dsimp only at h
      split_ifs at h
      all_goals first
        | (simp at h; done)
        | (simp only [Option.some.injEq] at h; subst h; intro hst; simp at hst; done)
        | exact storeInv_intentBlockRest sid lang u i aff neg urls (some s) hInv _ h
        | (simp only [Option.some.injEq] at h
           subst h
           intro _
           have hsi := hInv s rfl hconf
           obtain ⟨q1, q2, q3, q4⟩ := apply_labeled_fields_ne_empty (strTrim u) s.details
           exact ⟨q1 hsi.1, q2 hsi.2.1, q3 hsi.2.2.1, q4 hsi.2.2.2.1,
             fun hi => by
               show 2 ≤ ((_apply_labeled_change (strTrim u) s.details).1).attachments.length
               rw [apply_labeled_attachments]
               exact hsi.2.2.2.2 hi⟩)
    · rw [if_neg hconf] at h
      exact storeInv_intentBlockRest sid lang u i aff neg urls (some s) hInv _ h

lemma storeInv_chatStages (sid lang u : String) (intent : Option Intent) (aff neg : Bool)
    (urls : List String) (state : Option Session) (hInv : StoreInv state) :
    ∀ s', (chatStages sid lang u intent aff neg urls state).2 = some s' → SessionInv s' := by
  intro s' h
  unfold chatStages at h
  cases state with
  | none =>
    cases intent with
    | some i => exact storeInv_intentBlock sid lang u i aff neg urls none hInv _ h
    | none =>
      dsimp only at h
      simp at h
  | some s =>
    dsimp only at h
    cases hstage : s.stage
    all_goals rw [hstage] at h
    all_goals dsimp only at h
    · exact storeInv_handleAskedConfirm sid lang aff neg urls s hstage _ h
    · exact storeInv_handleCollect sid lang u urls s _ h
    · exact storeInv_handleAwaiting sid lang u urls s hstage _ h
    · cases intent with
      | some i => exact storeInv_intentBlock sid lang u i aff neg urls (some s) hInv _ h
      | none =>
        dsimp only at h
        simp only [Option.some.injEq] at h
        subst h
        exact hInv s rfl

lemma storeInv_chat (inp : TurnInput) (state : Option Session) (hInv : StoreInv state) :
    StoreInv (chat inp state).2 := by
  intro s' h
  unfold chat at h
  cases hm : inp.messages with
  | none =>
    rw [hm] at h
    exact hInv _ h
  | some msgs =>
    rw [hm] at h
    dsimp only at h
    cases hi : _detect_intent (userText msgs) with
    | some i =>
      rw [hi] at h
      dsimp only at h
      split_ifs at h
      all_goals first
        | (simp only [Option.some.injEq] at h; subst h; intro hst; simp at hst; done)
        | exact storeInv_chatStages _ _ _ _ _ _ _ _ hInv _ h
    | none =>
      rw [hi] at h
      exact storeInv_chatStages _ _ _ _ _ _ _ _ hInv _ h

lemma reachable_storeInv {st : Option Session} (h : Reachable st) : StoreInv st := by
  induction h with
  | init => intro s hs; simp at hs
  | step inp hr ih => exact storeInv_chat inp _ ih


/-! ## Routing a turn into the collect branch -/

lemma chat_collect_branch (inp : TurnInput) (msgs : List Message) (s : Session)
    (hm : inp.messages = some msgs) (hstage : s.stage = .collect_details)
    (hg : _detect_intent (userText msgs) = none ∨ _is_affirmative (userText msgs) = true
          ∨ _is_negative (userText msgs) = true) :
    chat inp (some s) = handleCollect (inp.session_id.getD inp.freshId) inp.lang
      (userText msgs) inp.savedUrls s := by
  unfold chat
  rw [hm]
  dsimp only
  rcases hg with h0 | h1 | h1
  · rw [h0]
    unfold chatStages
    dsimp only
    rw [hstage]
  · cases hi : _detect_intent (userText msgs) with
    | none =>
      unfold chatStages
      dsimp only
      rw [hstage]
    | some i =>
      dsimp only
      rw [h1]
      simp only [Bool.not_true, Bool.false_and, Bool.false_eq_true, if_false, ite_false]
      unfold chatStages
      dsimp only
      rw [hstage]
  · cases hi : _detect_intent (userText msgs) with
    | none =>
      unfold chatStages
      dsimp only
      rw [hstage]
    | some i =>
      dsimp only
      rw [h1]
      simp only [Bool.not_true, Bool.and_false, Bool.false_eq_true, if_false, ite_false]
      unfold chatStages
      dsimp only
      rw [hstage]


lemma whitespace_branch_eq (parts : List String) :
    (match parts with
     | p0 :: p1 :: _ => if (String.intercalate " " parts).length ≤ 80 then p0 ++ " " ++ p1 else ""
     | _ => "")
    = (if 2 ≤ parts.length ∧ (String.intercalate " " parts).length ≤ 80
       then parts.headD "" ++ " " ++ (parts.tail.headD "") else "") := by
  cases parts with
  | nil => simp
  | cons a rest =>
    cases rest with
    | nil => simp
    | cons b rest2 =>
      by_cases hl : (String.intercalate " " (a :: b :: rest2)).length ≤ 80 <;>
        simp [hl]

/-! ## The claims -/

/-- C1: the claim says an affirmative turn at `confirm_summary` removes the
session and returns the final success reply. The code does not do this for a
plain affirmative: "oui" is classified affirmative, but its detected intent
is `other`, and the summary-confirmation handler (main.py 667-680) is nested
inside the `intent in {rent, renew, return}` block (main.py 665), so the turn
falls through to the RAG/LLM fallback and the session is left at
`confirm_summary` — even though the summary prompt itself asks for
"Oui / Non". This theorem evaluates the model at the failing input. -/
theorem confirm_summary_affirmative_code_bug :
    _is_affirmative "oui" = true ∧ _detect_intent "oui" = none ∧
    chat (mkTurn "oui") (some confirmSession) =
      ({ reply := .fallback, session_id := "k", lang := "fr" }, some confirmSession) := by
  decide

/-- C2: the claim says a negative turn at `confirm_summary` followed by
"Code postal: 69001" updates the postal code and routes back to
`confirm_summary`. In the code the plain "non" (detected intent `other`)
never reaches the summary handler (main.py 665/681), so edit mode is never
entered: both turns fall through to the RAG/LLM fallback, and the stored
postal code stays "75001". This theorem evaluates the model on the two-turn
failing input. -/
theorem confirm_summary_correction_code_bug :
    _is_negative "non" = true ∧ _detect_intent "non" = none ∧
    (chat (mkTurn "non") (some confirmSession)).2 = some confirmSession ∧
    (chat (mkTurn "non") (some confirmSession)).1.reply = .fallback ∧
    (chat (mkTurn "Code postal: 69001") (some confirmSession)).2 = some confirmSession ∧
    confirmSession.details.postal_code = "75001" := by
  decide

/-- C3: whenever the detected intent is rent/renew/return and the utterance
is classified neither affirmative nor negative, the turn overwrites whatever
session entry existed (any stage, any slots) with a fresh `asked_confirm`
entry carrying that intent — the guard runs before any stage handling
(main.py 270-281). -/
theorem intent_guard_overwrites_session (inp : TurnInput) (msgs : List Message)
    (state : Option Session) (i : Intent)
    (hm : inp.messages = some msgs)
    (hi : _detect_intent (userText msgs) = some i)
    (ha : _is_affirmative (userText msgs) = false)
    (hn : _is_negative (userText msgs) = false) :
    (chat inp state).2 =
      some { intent := i, stage := .asked_confirm, details := emptyDetails, edit := false } := by
  unfold chat
  rw [hm]
  dsimp only
  rw [hi, ha, hn]
  rfl

theorem intent_guard_overwrites_session_witness :
    (chat (mkTurn "retour") (some rentProgressSession)).2 =
      some { intent := Intent.ret, stage := .asked_confirm, details := emptyDetails,
             edit := false } :=
  intent_guard_overwrites_session (mkTurn "retour") _ (some rentProgressSession) Intent.ret rfl
    (by decide) (by decide) (by decide)

/-- C4: in every session entry reachable from the empty store by any sequence
of turns, `stage = confirm_summary` implies the four scalar slots are
non-empty and, for rent/renew intents, at least two attachments are stored
(both `confirm_summary` creation sites, main.py 450-463 and 568-587, are
guarded by exactly these checks, and the inline-correction re-entry only
overwrites fields with non-empty parses). -/
theorem reachable_confirm_summary_slots (st : Option Session) (s : Session)
    (hr : Reachable st) (hs : st = some s) (hst : s.stage = .confirm_summary) :
    s.details.name ≠ "" ∧ s.details.start_date ≠ "" ∧ s.details.end_date ≠ "" ∧
    s.details.postal_code ≠ "" ∧
    ((s.intent = .rent ∨ s.intent = .renew) → 2 ≤ s.details.attachments.length) :=
  reachable_storeInv hr s hs hst

theorem reachable_confirm_summary_slots_witness :
    fullDetails.name ≠ "" ∧ fullDetails.start_date ≠ "" ∧ fullDetails.end_date ≠ "" ∧
    fullDetails.postal_code ≠ "" ∧
    ((confirmSession.intent = .rent ∨ confirmSession.intent = .renew) →
      2 ≤ fullDetails.attachments.length) := by
  have h1 : Reachable (some sessAsked) := by
    have h := Reachable.step (mkTurn "Je veux louer un tire-lait") Reachable.init
    rwa [show (chat (mkTurn "Je veux louer un tire-lait") none).2 = some sessAsked from by decide]
      at h
  have h2 : Reachable (some sessCollect0) := by
    have h := Reachable.step (mkTurn "oui") h1
    rwa [show (chat (mkTurn "oui") (some sessAsked)).2 = some sessCollect0 from by decide] at h
  have h3 : Reachable (some sessName) := by
    have h := Reachable.step (mkTurn "Dupont, Marie") h2
    rwa [show (chat (mkTurn "Dupont, Marie") (some sessCollect0)).2 = some sessName from by decide]
      at h
  have h4 : Reachable (some sessDates) := by
    have h := Reachable.step (mkTurn "22/01/2026 29/01/2026") h3
    rwa [show (chat (mkTurn "22/01/2026 29/01/2026") (some sessName)).2 = some sessDates
      from by decide] at h
  have h5 : Reachable (some confirmSession) := by
    have h := Reachable.step (mkTurn "75001" ["/uploads/a.pdf", "/uploads/b.pdf"]) h4
    rwa [show (chat (mkTurn "75001" ["/uploads/a.pdf", "/uploads/b.pdf"])
      (some sessDates)).2 = some confirmSession from by decide] at h
  exact reachable_confirm_summary_slots (some confirmSession) confirmSession h5 rfl rfl

/-- C5 counterexample: all the premises of the round-trip claim hold at this
concrete input (two valid dates, a 5-digit postal code, a two-token name,
two attachment URLs, all slots empty at `collect_details`), yet the single
turn does not reach `confirm_summary`: only the name slot — the first
missing slot — is filled, because the utterance is parsed only against that
slot's extractor (main.py 420-446). -/
theorem single_shot_stays_collect_details :
    2 ≤ (_parse_dates singleShotMsg).length ∧ _parse_postal singleShotMsg ≠ "" ∧
    _parse_name singleShotMsg ≠ "" ∧
    (chat (mkTurn singleShotMsg ["/uploads/a.pdf", "/uploads/b.pdf"])
        (some sessCollect0)).2 =
      some { intent := Intent.rent, stage := Stage.collect_details,
             details := { name := "Dupont Marie", start_date := "", end_date := "",
                          postal_code := "",
                          attachments := ["/uploads/a.pdf", "/uploads/b.pdf"] },
             edit := false } := by
  decide

/-- C5 amended: a full single-message submission (two valid dates, a 5-digit
postal code, a two-token name, two attachment URLs) made directly at
`collect_details` with all slots empty fills only the name slot and leaves
the session at `collect_details` (with the turn's attachments stored); it
does not reach `confirm_summary` in that one turn. -/
theorem single_shot_fills_only_name (inp : TurnInput) (msgs : List Message) (i : Intent)
    (hm : inp.messages = some msgs)
    (hg : _detect_intent (userText msgs) = none ∨ _is_affirmative (userText msgs) = true
          ∨ _is_negative (userText msgs) = true)
    (hd : 2 ≤ (_parse_dates (userText msgs)).length)
    (hp : _parse_postal (userText msgs) ≠ "")
    (hn : _parse_name (userText msgs) ≠ "")
    (hu : inp.savedUrls.length = 2) :
    (chat inp (some { intent := i, stage := .collect_details, details := emptyDetails,
                      edit := false })).2 =
      some { intent := i, stage := .collect_details,
             details := { name := _parse_name (userText msgs), start_date := "", end_date := "",
                          postal_code := "", attachments := inp.savedUrls },
             edit := false } := by
  rw [chat_collect_branch inp msgs _ hm rfl hg]
  have hne : inp.savedUrls.isEmpty = false := by
    cases hul : inp.savedUrls
    · rw [hul] at hu; simp at hu
    · rfl
  unfold handleCollect
  dsimp only
  rw [hne]
  simp only [Bool.false_eq_true, if_false, ite_false]
  unfold slotFill slotUpdate
  dsimp only
  rw [show missingFields emptyDetails =
    [Slot.name, Slot.start_date, Slot.end_date, Slot.postal_code] from rfl]
  simp only [List.head?_cons]
  rw [if_pos hn]
  rw [if_neg (by simp [emptyDetails])]
  rfl

theorem single_shot_fills_only_name_witness :
    (chat (mkTurn singleShotMsg ["/uploads/a.pdf", "/uploads/b.pdf"]) (some sessCollect0)).2 =
      some { intent := Intent.rent, stage := .collect_details,
             details := { name := _parse_name (userText [⟨"user", singleShotMsg⟩]),
                          start_date := "", end_date := "", postal_code := "",
                          attachments := ["/uploads/a.pdf", "/uploads/b.pdf"] },
             edit := false } :=
  single_shot_fills_only_name (mkTurn singleShotMsg ["/uploads/a.pdf", "/uploads/b.pdf"]) _
    Intent.rent rfl (Or.inl (by decide)) (by decide) (by decide) (by decide) (by decide)

/-- C6 counterexample: when a session id is supplied together with an
unparseable payload, the error response echoes the supplied id (main.py 157:
`session_id or str(uuid.uuid4())`), not a freshly generated one. -/
theorem malformed_payload_echoes_supplied_id :
    (chat { messages := none, session_id := some "abc", lang := "fr", savedUrls := [],
            freshId := "fresh-uuid" } (some confirmSession)).1.session_id = "abc" ∧
    ("abc" : String) ≠ "fresh-uuid" := by decide

/-- C6 amended: an unparseable messages payload short-circuits the turn with
the fixed-language error reply and the supplied session id when one was
given (a freshly generated one only otherwise), leaving the stored session
state unchanged. -/
theorem malformed_payload_short_circuits (inp : TurnInput) (state : Option Session)
    (hm : inp.messages = none) :
    chat inp state =
      ({ reply := .invalidFormat, session_id := inp.session_id.getD inp.freshId, lang := "fr" },
       state) := by
  unfold chat
  rw [hm]

theorem malformed_payload_short_circuits_witness :
    chat { messages := none, session_id := none, lang := "ar", savedUrls := [], freshId := "F" }
        (some confirmSession) =
      ({ reply := .invalidFormat, session_id := "F", lang := "fr" }, some confirmSession) :=
  malformed_payload_short_circuits _ _ rfl

/-- C7: during non-edit `collect_details`, when the next missing slot is
`start_date` the first date token becomes `start_date`, a second token in the
same utterance is greedily assigned to `end_date` when that slot is still
empty (and `end_date` is left untouched otherwise); when the next missing
slot is `end_date`, the last date token found becomes `end_date`
(main.py 427-440). -/
theorem date_slot_filling_first_and_last (sid lang u : String) (urls : List String)
    (s : Session) (he : s.edit = false) :
    ((missingFields s.details).head? = some Slot.start_date →
      ∀ d0 rest, _parse_dates u = d0 :: rest →
        ∃ s', (handleCollect sid lang u urls s).2 = some s' ∧
          s'.details.start_date = d0 ∧
          (s.details.end_date = "" → ∀ d1 rest2, rest = d1 :: rest2 →
            s'.details.end_date = d1) ∧
          (s.details.end_date ≠ "" → s'.details.end_date = s.details.end_date)) ∧
    ((missingFields s.details).head? = some Slot.end_date →
      ∀ d0 rest, _parse_dates u = d0 :: rest →
        ∃ s', (handleCollect sid lang u urls s).2 = some s' ∧
          s'.details.end_date = lastD (_parse_dates u)) := by
  rw [handleCollect_nonedit sid lang u urls s he]
  have hd1e : (if urls.isEmpty then s.details
      else { s.details with attachments := urls }).end_date = s.details.end_date := by
    split <;> rfl
  try dsimp only at hd1e
  obtain ⟨st, hst⟩ := slotFill_snd sid lang u s.intent (missingFields s.details)
    (if urls.isEmpty then s.details else { s.details with attachments := urls })
  constructor
  · intro hh d0 rest hds
    refine ⟨_, hst, ?_, ?_, ?_⟩
    · show (slotUpdate (missingFields s.details) u
        (if urls.isEmpty then s.details
         else { s.details with attachments := urls })).start_date = d0
      simp only [slotUpdate, hh, hds]
      cases rest with
      | nil => rfl
      | cons d1 rest2 =>
        dsimp only
        (repeat' split) <;> rfl
    · intro hse d1 rest2 hrest
      subst hrest
      show (slotUpdate (missingFields s.details) u
        (if urls.isEmpty then s.details
         else { s.details with attachments := urls })).end_date = d1
      simp only [slotUpdate, hh, hds]
      try dsimp only
      (repeat' split) <;> first | rfl | exact absurd hse (by assumption)
    · intro hne
      show (slotUpdate (missingFields s.details) u
        (if urls.isEmpty then s.details
         else { s.details with attachments := urls })).end_date = s.details.end_date
      simp only [slotUpdate, hh, hds]
      cases rest with
      | nil => first | exact hd1e | ((repeat' split) <;> rfl)
      | cons d1 rest2 =>
        try dsimp only
        (repeat' split) <;> first | rfl | exact absurd (by assumption) hne
  · intro hh d0 rest hds
    refine ⟨_, hst, ?_⟩
    show (slotUpdate (missingFields s.details) u
      (if urls.isEmpty then s.details
       else { s.details with attachments := urls })).end_date = lastD (_parse_dates u)
    simp only [slotUpdate, hh, hds]

theorem date_slot_filling_first_and_last_witness :
    (∃ s', (handleCollect "k" "fr" "22/01/2026 29/01/2026" [] sessName).2 = some s' ∧
      s'.details.start_date = "22/01/2026" ∧ s'.details.end_date = "29/01/2026") ∧
    (∃ s', (handleCollect "k" "fr" "05/02/2026 07/02/2026" [] sessStartOnly).2 = some s' ∧
      s'.details.end_date = "07/02/2026") := by
  constructor
  · obtain ⟨s', h1, h2, h3, _⟩ :=
      (date_slot_filling_first_and_last "k" "fr" "22/01/2026 29/01/2026" [] sessName rfl).1
        (by decide) "22/01/2026" ["29/01/2026"] (by decide)
    exact ⟨s', h1, h2, h3 (by decide) "29/01/2026" [] rfl⟩
  · obtain ⟨s', h1, h2⟩ :=
      (date_slot_filling_first_and_last "k" "fr" "05/02/2026 07/02/2026" [] sessStartOnly rfl).2
        (by decide) "05/02/2026" ["07/02/2026"] (by decide)
    refine ⟨s', h1, ?_⟩
    rw [h2]
    decide

/-- C8 counterexample: the claim quantifies over every stored slot value; a
stored name of "louer retour", resubmitted verbatim at non-edit
`collect_details`, is caught by the intent-restart guard (its detected
intent is rent, and it is neither affirmative nor negative), which discards
the session's slots and moves the next-missing-slot pointer backwards. -/
theorem resubmission_guard_counterexample :
    guardTrapSession.stage = .collect_details ∧ guardTrapSession.edit = false ∧
    guardTrapSession.details.name = "louer retour" ∧
    (chat (mkTurn "louer retour") (some guardTrapSession)).2 =
      some { intent := .rent, stage := .asked_confirm, details := emptyDetails, edit := false } ∧
    emptyDetails.name = "" ∧
    firstMissingIdx emptyDetails < firstMissingIdx guardTrapSession.details := by
  decide

/-- C8 amended: provided the utterance does not itself fire the
intent-restart guard (its detected intent is not rent/renew/return, or it is
classified affirmative or negative), resubmitting an already-filled slot's
value during non-edit `collect_details` leaves every already-filled scalar
slot unchanged and never moves the next-missing-slot pointer backwards in
the fixed order [name, start_date, end_date, postal_code]. -/
theorem resubmission_preserves_filled_slots (inp : TurnInput) (msgs : List Message)
    (s : Session)
    (hm : inp.messages = some msgs) (hstage : s.stage = .collect_details)
    (he : s.edit = false)
    (hg : _detect_intent (userText msgs) = none ∨ _is_affirmative (userText msgs) = true
          ∨ _is_negative (userText msgs) = true)
    (hval : (userText msgs = s.details.name ∧ s.details.name ≠ "") ∨
            (userText msgs = s.details.start_date ∧ s.details.start_date ≠ "") ∨
            (userText msgs = s.details.end_date ∧ s.details.end_date ≠ "") ∨
            (userText msgs = s.details.postal_code ∧ s.details.postal_code ≠ "")) :
    ∃ s', (chat inp (some s)).2 = some s' ∧
      (s.details.name ≠ "" → s'.details.name = s.details.name) ∧
      (s.details.start_date ≠ "" → s'.details.start_date = s.details.start_date) ∧
      (s.details.end_date ≠ "" → s'.details.end_date = s.details.end_date) ∧
      (s.details.postal_code ≠ "" → s'.details.postal_code = s.details.postal_code) ∧
      firstMissingIdx s.details ≤ firstMissingIdx s'.details := by
  rw [chat_collect_branch inp msgs s hm hstage hg]
  exact handleCollect_preserves_filled _ _ _ _ s he

theorem resubmission_preserves_filled_slots_witness :
    ∃ s', (chat (mkTurn "Dupont Marie") (some rentProgressSession)).2 = some s' ∧
      (rentProgressSession.details.name ≠ "" →
        s'.details.name = rentProgressSession.details.name) ∧
      (rentProgressSession.details.start_date ≠ "" →
        s'.details.start_date = rentProgressSession.details.start_date) ∧
      (rentProgressSession.details.end_date ≠ "" →
        s'.details.end_date = rentProgressSession.details.end_date) ∧
      (rentProgressSession.details.postal_code ≠ "" →
        s'.details.postal_code = rentProgressSession.details.postal_code) ∧
      firstMissingIdx rentProgressSession.details ≤ firstMissingIdx s'.details :=
  resubmission_preserves_filled_slots (mkTurn "Dupont Marie") _ rentProgressSession rfl rfl rfl
    (Or.inl (by decide)) (Or.inl (by decide))

/-- C9 counterexample: the name parser as the claim states it disagrees with
the code on three concrete inputs: a comma with fewer than two non-empty
segments falls through to the whitespace branch instead of returning empty
("Dupont Marie,"); the length ceiling applies to the whitespace-normalised
join of the tokens, not to the whole input (101 characters of mostly spaces
still parse); and the ceiling is "at most 80", not "under 80" (an
80-character input still parses). -/
theorem name_parser_claim_counterexample :
    (_parse_name "Dupont Marie," = "Dupont Marie," ∧
      parse_name_claimed "Dupont Marie," = "") ∧
    (_parse_name c9LongInput = "a b" ∧ parse_name_claimed c9LongInput = "") ∧
    (parse_name_claimed c9Len80Input = "" ∧ _parse_name c9Len80Input ≠ "") := by
  decide

/-- C9 amended: the name parser returns the first two non-empty stripped
comma segments joined with a space when the input contains a comma and at
least two such segments exist; otherwise it returns the first two whitespace
tokens joined with a space provided their whitespace-normalised join is at
most 80 characters; and empty in every other case. -/
theorem name_parser_characterization (t : String) :
    _parse_name t = parse_name_amended t := by
  unfold _parse_name parse_name_amended
  dsimp only
  by_cases hc : containsSub t ","
  · simp only [hc, if_true, ite_true]
    cases hs : ((t.data.splitOn ',').map (fun l => strTrim (String.mk l))).filter (· ≠ "") with
    | nil =>
      simp only [List.length_nil]
      rw [if_neg (by simp)]
      exact whitespace_branch_eq _
    | cons a rest =>
      cases rest with
      | nil =>
        rw [if_neg (by simp)]
        exact whitespace_branch_eq _
      | cons b rest2 =>
        rw [if_pos ⟨trivial, by simp⟩]
        rfl
  · simp only [hc, if_false, ite_false, Bool.false_eq_true]
    rw [if_neg (by simp [hc])]
    exact whitespace_branch_eq _

/-- C10: any `collect_details` turn (edit mode or not) whose upload step
saved at least one file replaces the stored attachments list with exactly
that turn's saved URLs — earlier attachments are discarded, never appended
to (main.py 347-348). -/
theorem collect_turn_attachments_replaced (inp : TurnInput) (msgs : List Message)
    (s : Session)
    (hm : inp.messages = some msgs) (hstage : s.stage = .collect_details)
    (hg : _detect_intent (userText msgs) = none ∨ _is_affirmative (userText msgs) = true
          ∨ _is_negative (userText msgs) = true)
    (hurls : inp.savedUrls ≠ []) :
    ∃ s', (chat inp (some s)).2 = some s' ∧ s'.details.attachments = inp.savedUrls := by
  rw [chat_collect_branch inp msgs s hm hstage hg]
  exact handleCollect_attachments _ _ _ _ s hurls

theorem collect_turn_attachments_replaced_witness :
    ∃ s', (chat (mkTurn "75001" ["/uploads/new1.pdf", "/uploads/new2.pdf"])
        (some priorAttachSession)).2 = some s' ∧
      s'.details.attachments = ["/uploads/new1.pdf", "/uploads/new2.pdf"] :=
  collect_turn_attachments_replaced
    (mkTurn "75001" ["/uploads/new1.pdf", "/uploads/new2.pdf"]) _ priorAttachSession rfl rfl
    (Or.inl (by decide)) (by decide)

end TLX
